import Mathlib

/-!
Shallow embedding of `src/utils/formula.py` (repository IDOU_DW_PG).

Python strings are modelled as `List Char` (`Str`), so that every string
operation the source uses (`replace`, `split`, `in`, slicing, `strip`,
`lower`, …) can be written as an executable structural recursion and
evaluated by `decide` / `rfl` on concrete inputs.

Fallible Python code (asserts, `raise`, IndexError, KeyError, TypeError,
AttributeError) is modelled with `Except Err`.  Each `Err` constructor
corresponds to one exception site of the source, with its payload.
-/

namespace Formula

/-- Python strings are modelled as lists of characters. -/
abbrev Str := List Char

/-- `pyStartsWith p s` : `s` starts with `p` (Python `s.startswith(p)`,
used to model the scanning step of `str.replace`). -/
def pyStartsWith : Str → Str → Bool
  | [], _ => true
  | _ :: _, [] => false
  | a :: p, b :: s => a = b && pyStartsWith p s

/-- `pyContains s sub` : Python `sub in s` (substring containment). -/
def pyContains (s sub : Str) : Bool :=
  match s with
  | [] => sub.isEmpty
  | c :: t => pyStartsWith sub (c :: t) || pyContains t sub

/-- Worker for Python `str.replace(old, new)`: non-overlapping left-to-right
replacement.  The `Nat` argument counts characters still to be skipped after
a match (the matched occurrence minus its first character), which keeps the
recursion structural on the string. -/
def replaceAllAux (n : Char) (ns r : Str) : Nat → Str → Str
  | _, [] => []
  | Nat.succ k, _ :: t => replaceAllAux n ns r k t
  | 0, c :: t =>
    if pyStartsWith (n :: ns) (c :: t) then r ++ replaceAllAux n ns r ns.length t
    else c :: replaceAllAux n ns r 0 t

/-- Python `s.replace(old, new)`.  The source never calls `replace` with an
empty `old`; for `old = []` we return `s` unchanged. -/
def pyReplace (s old new : Str) : Str :=
  match old with
  | [] => s
  | n :: ns => replaceAllAux n ns new 0 s

/-- Python `s.split(sep)` for a one-character separator. -/
def pySplitChar (sep : Char) : Str → List Str
  | [] => [[]]
  | c :: t =>
    if c = sep then [] :: pySplitChar sep t
    else
      match pySplitChar sep t with
      | [] => [[c]]
      | h :: r => (c :: h) :: r

/-- Python whitespace characters for `str.strip()` (ASCII range; the
formulas of this module only ever contain the plain space). -/
def isSpaceChar (c : Char) : Bool :=
  c = ' ' || c = '\t' || c = '\n' || c = '\x0b' || c = '\x0c' || c = '\r'

/-- Python `s.strip()`. -/
def pyStrip (s : Str) : Str :=
  ((s.dropWhile isSpaceChar).reverse.dropWhile isSpaceChar).reverse

/-- Python `s.isdigit()` restricted to ASCII digits (the only digits the
verified claims exercise); `''.isdigit()` is `False`. -/
def pyIsDigit (s : Str) : Bool :=
  !s.isEmpty && s.all Char.isDigit

/-- Python `int(...)` on a string of ASCII digits. -/
def digitsToNat (ds : Str) : Nat :=
  ds.foldl (fun n c => n * 10 + (c.toNat - '0'.toNat)) 0

def digitChar (n : Nat) : Char := Char.ofNat (48 + n)

/-- Decimal rendering of a `Nat` (fuel-structured so that it reduces by
`rfl`/`decide`). -/
def natToStrAux : Nat → Nat → Str
  | 0, _ => []
  | fuel + 1, n =>
    if n < 10 then [digitChar n]
    else natToStrAux fuel (n / 10) ++ [digitChar (n % 10)]

def natToStr (n : Nat) : Str := natToStrAux (n + 1) n

/-- Python `str(i)` for an `int`. -/
def intToStr (n : Int) : Str :=
  if n < 0 then '-' :: natToStr n.natAbs else natToStr n.natAbs

/-- Python `','.join(parts)` and friends. -/
def pyJoin (sep : Str) (parts : List Str) : Str :=
  List.intercalate sep parts

/-- Exceptions raised by `formula.py`, one constructor per raise/assert
site (payload = the value interpolated into the Python message). -/
inductive Err
  /-- `assert ',' not in formula` in `_parse_formula` (single clause). -/
  | malformedSingleFormula (formula : Str)
  /-- `assert verified` in `_parse_formula` (定参判断 clause). -/
  | badComparisonForm (formula : Str)
  /-- Python `IndexError` (out-of-range list/str subscript). -/
  | indexError
  /-- Python `AttributeError` (`None.group()` after a failed regex match). -/
  | attributeError
  /-- Python `KeyError` (`inclusive_dict[...]` lookup in `range2tuple`). -/
  | keyError
  /-- Python `TypeError` (comparing `int` with `str` inside `list.sort`). -/
  | typeError
  /-- `assert len(range_list) == 2` in `range2tuple`. -/
  | malformedRange (range : Str)
  /-- `assert len(thresholds) in [1, 2]` in the range/compare renderers. -/
  | thresholdCountError
  /-- `raise ValueError` for an unknown single-threshold method. -/
  | unknownSingleMethod (method : Str)
  /-- `raise ValueError` for an unknown double-threshold method. -/
  | unknownDoubleMethod (method : Str)
  /-- `raise ValueError` in `unify_number` when `eval` fails. -/
  | invalidNumeric (s : Str)
  /-- `raise ValueError` : unrecognised shift unit in `parse_special_field`. -/
  | unrecognizedShiftUnit (sign : Str)
  /-- `raise ValueError` : unrecognised shift direction. -/
  | unrecognizedShiftDirection (sign : Str)
  /-- `raise ValueError` : no extractable shift offset. -/
  | missingShiftOffset (sign : Str)
  /-- `raise ValueError` with `error='raise'` : unrecognised special field. -/
  | unrecognizedSpecialField (field : Str)
deriving DecidableEq

/-- `l[i]` on a Python list: IndexError when out of range. -/
def pyIndex (l : List α) (i : Nat) : Except Err α :=
  match l.get? i with
  | some x => .ok x
  | none => .error .indexError

/-- `s[i]` on a Python string: IndexError when out of range. -/
def pyIndexChar (s : Str) (i : Nat) : Except Err Char :=
  match s.get? i with
  | some c => .ok c
  | none => .error .indexError

instance instDecEqExcept [DecidableEq ε] [DecidableEq α] : DecidableEq (Except ε α) :=
  fun x y =>
  match x, y with
  | .ok a, .ok b =>
    if h : a = b then .isTrue (by rw [h]) else .isFalse (by intro hh; cases hh; exact h rfl)
  | .error a, .error b =>
    if h : a = b then .isTrue (by rw [h]) else .isFalse (by intro hh; cases hh; exact h rfl)
  | .ok _, .error _ => .isFalse (by intro hh; cases hh)
  | .error _, .ok _ => .isFalse (by intro hh; cases hh)

/-- `_formula_comparision_operators` (formula.py line 8). -/
def comparisonOperators : List Str :=
  ["==", "!=", "<=", ">=", "<", ">",
   ".isna()", ".isnull()", ".notna()", ".notnull()",
   ".isin", ".str.contains"].map String.toList

/-- `verify_pythonic_formula` (formula.py line 194): strip every recognised
comparison operator, then reject a residual bare `=` or `<>`. -/
def verify_pythonic_formula (formula : Str) : Bool :=
  let f := comparisonOperators.foldl (fun acc sign => pyReplace acc sign []) formula
  !pyContains f "=".toList && !pyContains f "<>".toList

/-- `_formula_unify_mapper` (formula.py line 35): full-width / special
characters and their half-width replacements. -/
def unifyMapper : List (Char × Str) :=
  [('～', "~".toList), ('（', "(".toList), ('）', ")".toList),
   ('＋', "+".toList), ('－', "-".toList), ('×', "*".toList),
   ('÷', "/".toList), ('，', ",".toList), ('：', ":".toList),
   ('；', ";".toList), ('＝', "=".toList), ('＜', "<".toList),
   ('＞', ">".toList), ('≤', "<=".toList), ('≥', ">=".toList),
   ('≠', "!=".toList), ('％', "%".toList), ('＃', "#".toList),
   ('＆', "&".toList), ('＠', "@".toList), ('＄', "$".toList),
   ('＊', "*".toList), ('＂', "\"".toList), ('“', "\"".toList),
   ('”', "\"".toList), ('＇', "'".toList), ('‘', "'".toList),
   ('’', "'".toList), ('［', "[".toList), ('］', "]".toList),
   ('｛', ['\x7b']), ('｝', ['\x7d']), ('｜', "|".toList),
   ('　', " ".toList), ('／', "/".toList)]

/-- `clean_formula` (formula.py line 101), `str` branch: apply the
full-width unification table, then remove spaces.  The Python code iterates
over an (unordered) set intersection of the mapper keys with the formula's
characters; since every key is a single character absent from every
replacement value, the replacements commute, so a fixed fold over the whole
table computes the same string. -/
def clean_formula (formula : Str) : Str :=
  let formula := unifyMapper.foldl (fun acc kv => pyReplace acc [kv.1] kv.2) formula
  pyReplace formula " ".toList []

/-- `simple_cleaning` (formula.py line 82), `str` branch: strip spaces,
full-width comma to `,`, then coerce the literal sentinels
`-`, `nan`, `NaN`, `NAN`, `None` (exact matches) to the empty string. -/
def simple_cleaning (text : Str) : Str :=
  let text := pyReplace text " ".toList []
  let text := pyReplace text "，".toList ",".toList
  if text = "-".toList ∨ text = "nan".toList ∨ text = "NaN".toList ∨
     text = "NAN".toList ∨ text = "None".toList then [] else text

/-- The five formula kinds of `_parse_formula`.  The Chinese tags of the
source map as: 计算 → `compute`, 定参判断 → `fixedParamJudge`,
时间计算 → `timeCalc`, 统计 → `stats`, 不定参判断 → `freeParamJudge`. -/
inductive FType
  | compute
  | fixedParamJudge
  | timeCalc
  | stats
  | freeParamJudge
deriving DecidableEq

/-- The formula dictionary returned by `_parse_formula`: a superset record
of the per-kind dicts (`normal_fdict`, `timecalc_fdict`, `stats_fdict`,
`paramjudge_fdict` of custom_typing.py); fields a kind does not set keep
their empty defaults.  The legacy alias `add_condition` always equals
`condition` in the source, so only `condition` is carried. -/
structure FDict where
  ftype : FType
  formula : Str
  timeUnit : Str := []
  statsMethod : Str := []
  statsField : Str := []
  groupKeys : List Str := []
  condition : Str := []
  target : Str := []
  direction : Str := []
  dimensionNames : List Str := []
deriving DecidableEq

/-- The `统计` heads of `_formula_special_heads` (formula.py line 14). -/
def statsHeads : List Str := ["count", "sum", "mean", "quantile"].map String.toList

/-- The `时间计算` heads of `_formula_special_heads`. -/
def timeCalcHeads : List Str :=
  ["year", "Y", "quarter", "Q", "month", "M", "day", "D"].map String.toList

/-- `_formula_head_mapper.get(f_head, '不定参判断')` (formula.py line 19/161). -/
def headKind (head : Str) : FType :=
  if head ∈ statsHeads then .stats
  else if head ∈ timeCalcHeads then .timeCalc
  else .freeParamJudge

/-- `_parse_formula` (formula.py line 137): split on `;`, classify, build
the kind-specific dictionary with its synthesized `formula` entry. -/
def _parse_formula (formula : Str) : Except Err FDict :=
  if ';' ∉ formula then
    -- single clause: 计算 or 定参判断
    if ',' ∈ formula then .error (.malformedSingleFormula formula)
    else if comparisonOperators.any (fun sign => pyContains formula sign) then
      if verify_pythonic_formula formula then
        .ok { ftype := .fixedParamJudge, formula := formula }
      else .error (.badComparisonForm formula)
    else .ok { ftype := .compute, formula := formula }
  else do
    -- multi clause: 时间计算 / 统计 / 不定参判断
    let fList := (pySplitChar ';' formula).map (pySplitChar ',')
    let clause0 ← pyIndex fList 0
    let fHead ← pyIndex clause0 0
    match headKind fHead with
    | .timeCalc => do
        let c1 ← pyIndex fList 1
        let f ← pyIndex c1 0
        .ok { ftype := .timeCalc, timeUnit := fHead, formula := f }
    | .stats => do
        let statsField := if clause0.length > 1 then pyJoin ",".toList (clause0.drop 1) else []
        let groupKeys ← pyIndex fList 1
        let c2 ← pyIndex fList 2
        let condition ← pyIndex c2 0
        .ok { ftype := .stats, statsMethod := fHead, statsField := statsField,
              groupKeys := groupKeys, condition := condition,
              formula := pyJoin ",".toList (statsField :: (groupKeys ++ [condition])) }
    | _ => do
        let direction ← pyIndex clause0 1
        let dims ← pyIndex fList 1
        .ok { ftype := .freeParamJudge, target := fHead, direction := direction,
              dimensionNames := dims,
              formula := fHead ++ '+' :: pyJoin "*".toList dims }

/-- `_formula_special_words` (formula.py line 24). -/
def specialWords : List Str :=
  ["match", "exact_match",
   "year", "Y", "quarter", "Q", "month", "M", "day", "D",
   "count", "sum", "mean", "quantile",
   "abs",
   "True", "False", "TRUE", "FALSE", "true", "false"].map String.toList

/-- `stop_symbol` of `_parse_fields` (formula.py line 225): the characters
of `r',+-*/()=<>%#&|'`. -/
def stopSymbols : List Char :=
  [',', '+', '-', '*', '/', '(', ')', '=', '<', '>', '%', '#', '&', '|']

/-- `exception_mapper` of `_parse_fields` (formula.py line 227). -/
def exceptionMapper : List (Str × Str) :=
  [("^-".toList, "^^".toList), ("~-".toList, "~~".toList), ("°-".toList, "°°".toList)]

/-- One pass of the `while '  ' in formula` loop body. -/
def squeezeOnce (s : Str) : Str := pyReplace s "  ".toList " ".toList

/-- The `while '  ' in formula: formula = formula.replace('  ', ' ')` loop
of `_parse_fields` (formula.py line 239), run with fuel `s.length`.  Every
iteration that fires shortens the string by at least one character, so
`s.length` passes always reach the loop's fixpoint; the fuel only makes the
recursion structural. -/
def squeezeSpaces : Nat → Str → Str
  | 0, s => s
  | fuel + 1, s =>
    if pyContains s "  ".toList then squeezeSpaces fuel (squeezeOnce s) else s

/-- `f.replace('.','').replace('-','').isdigit()` — the "purely numeric"
test of `_parse_fields` (formula.py line 254). -/
def pyDigitLike (f : Str) : Bool :=
  pyIsDigit (pyReplace (pyReplace f ['.'] []) ['-'] [])

/-- The per-token body of the `for i, f in enumerate(fields)` loop of
`_parse_fields` (formula.py line 252): numeric / quoted / reserved tokens
are blanked (and later filtered out), and a dotted token not already ending
in `)` gets `()` appended. -/
def processToken (f : Str) : Str :=
  if pyDigitLike f = true ∨ '"' ∈ f ∨ f ∈ specialWords then []
  else if '.' ∈ f ∧ f.getLast? ≠ some ')' then f ++ "()".toList
  else f

/-- The tokenization pipeline of `_parse_fields` (formula.py lines
232-246): protect the `^-`/`~-`/`°-` sequences, blank the stop symbols,
squeeze space runs, strip, restore the protected sequences, split. -/
def tokenSplit (formula : Str) : List Str :=
  let f := exceptionMapper.foldl (fun acc kv => pyReplace acc kv.1 kv.2) formula
  let f := stopSymbols.foldl (fun acc s => pyReplace acc [s] [' ']) f
  let f := squeezeSpaces f.length f
  let f := pyStrip f
  let f := exceptionMapper.foldl (fun acc kv => pyReplace acc kv.2 kv.1) f
  pySplitChar ' ' f

/-- The retained tokens of `_parse_fields`: tokenize, process each token,
drop the blanked ones (formula.py lines 252-264). -/
def retainedTokens (formula : Str) : List Str :=
  ((tokenSplit formula).map processToken).filter (fun x => !x.isEmpty)

/-- Order-fixing model of Python `list(set(xs))`: duplicates removed, first
occurrences kept.  The Python set iteration order is unspecified; every
verified statement about the result is order-insensitive. -/
def pySetList (seen : List Str) : List Str → List Str
  | [] => []
  | x :: t => if x ∈ seen then pySetList seen t else x :: pySetList (x :: seen) t

/-- The suffix alphabet of the `unique` branch: `~`, `^`, `°`, `.`. -/
def isSuffixMark (c : Char) : Bool :=
  c = '~' || c = '^' || c = '°' || c = '.'

/-- `re.compile(r'[^~^°.]+').match(f).group()` (formula.py lines 269-271):
the maximal prefix of `f` made of non-suffix characters; when the first
character of `f` is a suffix mark (or `f` is empty) the regex match is
`None` and `.group()` raises `AttributeError`. -/
def tokenStem (f : Str) : Except Err Str :=
  if (f.takeWhile (fun c => !isSuffixMark c)).isEmpty then .error .attributeError
  else .ok (f.takeWhile (fun c => !isSuffixMark c))

/-- Error-propagating map (the list comprehension
`[pattern.match(f).group() for f in fields]`). -/
def mapMExcept (g : α → Except Err β) : List α → Except Err (List β)
  | [] => .ok []
  | x :: t =>
    match g x with
    | .error e => .error e
    | .ok y =>
      match mapMExcept g t with
      | .error e => .error e
      | .ok r => .ok (y :: r)

/-- `_parse_fields` (formula.py line 220). -/
def _parse_fields (formula : Str) (unique : Bool := true) : Except Err (List Str) :=
  match unique with
  | true =>
    match mapMExcept tokenStem (pySetList [] (retainedTokens formula)) with
    | .error e => .error e
    | .ok fs => .ok (pySetList [] fs)
  | false => .ok (retainedTokens formula)

/-- `parse_fields` (formula.py line 203), `str` branch: clean, classify,
then extract fields from the synthesized `formula` entry. -/
def parse_fields (formula : Str) (unique : Bool := true) : Except Err (List Str) := do
  let f := clean_formula formula
  let d ← _parse_formula f
  _parse_fields d.formula unique

/-- The character class `[a-zA-Z0-9_]` of `_field_executable_pattern`
(formula.py line 80). -/
def isWordChar (c : Char) : Bool :=
  ('a' ≤ c && c ≤ 'z') || ('A' ≤ c && c ≤ 'Z') || ('0' ≤ c && c ≤ '9') || c = '_'

/-- The character class `[a-z]` of `_field_executable_pattern`. -/
def isLowerAZ (c : Char) : Bool := 'a' ≤ c && c ≤ 'z'

/-- `_field_executable_pattern.match(field)` for the anchored regex
`([a-zA-Z0-9_]+)\.[a-z]+`: the greedy first group is the maximal leading
run of word characters (word characters cannot match the `\.`, so no
backtracking split exists); the match succeeds when that run is non-empty,
the next character is `.`, and at least one lowercase letter follows.
Returns `(group(1), rest-of-string-after-group(1))`; the second component
is `field.replace(group(1), '', 1)` of the source, which deletes the
leftmost occurrence of `group(1)` — its occurrence as the prefix. -/
def execMatch (field : Str) : Option (Str × Str) :=
  if (field.takeWhile isWordChar).isEmpty then none
  else
    match field.dropWhile isWordChar with
    | c :: t =>
      if c = '.' then
        if (t.takeWhile isLowerAZ).isEmpty then none
        else some (field.takeWhile isWordChar, c :: t)
      else none
    | [] => none

/-- The three symbolic shift operators of `_field_shift_operation_mapper`
(formula.py line 73). -/
def isShiftOp (c : Char) : Bool := c = '^' || c = '~' || c = '°'

/-- Split a newline-free string at its last shift operator, if any. -/
def splitLastOpAux : Str → Option (Str × Char × Str)
  | [] => none
  | c :: t =>
    match splitLastOpAux t with
    | some (pre, op, post) => some (c :: pre, op, post)
    | none => if isShiftOp c then some ([], c, t) else none

/-- `_field_shift_pattern.match(field)` for the regex `(.*)(\^|~|°)(.*)`
under `re.match`: `.` does not match a newline, so both `(.*)` groups stay
within the field's first line (its maximal newline-free prefix); the
greedy first group makes the operator group match the *last* shift
operator in that line, and the match fails (`None`) when the first line
contains none — even if an operator occurs after a newline.  Returns
`(group(1), group(2), group(3))`. -/
def splitLastOp (field : Str) : Option (Str × Char × Str) :=
  splitLastOpAux (field.takeWhile (fun c => !(c = '\n')))

/-- `re.search(r'[\-]?\d+', sign)` followed by `int(...)` : the leftmost
(optionally minus-signed) digit run in `sign`, as an integer. -/
def searchSignedInt : Str → Option Int
  | [] => none
  | c :: t =>
    if c.isDigit then some (Int.ofNat (digitsToNat ((c :: t).takeWhile Char.isDigit)))
    else if c = '-' then
      match t.takeWhile Char.isDigit with
      | [] => searchSignedInt t
      | d :: ds => some (-(Int.ofNat (digitsToNat (d :: ds))))
    else searchSignedInt t

/-- Python `str.lower()` restricted to ASCII letters; the shift signs this
module handles contain no non-ASCII cased letters, so the restriction is
invisible to them. -/
def pyLower (s : Str) : Str := s.map Char.toLower

/-- The `error=` policy parameter of `parse_special_field`
(`'ignore' | 'warn' | 'raise'`). -/
inductive EPolicy
  | ignore
  | warn
  | policyRaise
deriving DecidableEq

/-- The dictionaries returned by `parse_special_field`:
`executable` = `{'origin', 'executable', '_success': True}`;
`noShift`    = `{'origin', 'unit': '', 'direction': '', 'offset': '',
'_success': False}`; `shifted` = the full `_success: True` shift dict. -/
inductive ParsedField
  | executable (origin suffix : Str)
  | noShift (origin : Str)
  | shifted (origin unit direction : Str) (offset : Int)
deriving DecidableEq

/-- The sign-analysis part of `parse_special_field` (formula.py lines
344-389): lower-case the sign, short-circuit the current-period synonyms,
then determine unit, direction and offset in the source's test order. -/
def analyzeSign (field : Str) (rawSign : Str) : Except Err ParsedField := do
  let sign := pyLower rawSign
  if sign = "本期".toList ∨ sign = "当期".toList ∨ sign = [] then
    .ok (.noShift field)
  else do
    let unit ←
      if pyContains sign "end".toList ∨ '末' ∈ sign ∨ '°' ∈ sign then
        pure "YEND".toList
      else if pyContains sign "year".toList ∨ '年' ∈ sign ∨ '^' ∈ sign ∨ '期' ∈ sign then
        pure "Y".toList
      else if pyContains sign "quarter".toList ∨ '季' ∈ sign ∨ '~' ∈ sign then
        pure "Q".toList
      else if pyContains sign "month".toList ∨ '月' ∈ sign then
        pure "M".toList
      else Except.error (.unrecognizedShiftUnit sign)
    let dir ←
      if '本' ∈ sign ∨ '当' ∈ sign ∨ pyContains sign "°0".toList then
        pure "current".toList
      else if '下' ∈ sign ∨ pyContains sign "^-".toList ∨ pyContains sign "~-".toList ∨
          pyContains sign "°-".toList then
        pure "forward".toList
      else if '上' ∈ sign ∨ '^' ∈ sign ∨ '~' ∈ sign ∨ '°' ∈ sign then
        pure "backward".toList
      else Except.error (.unrecognizedShiftDirection sign)
    let offset ←
      match searchSignedInt sign with
      | some n => pure (if dir = "forward".toList then -(Int.ofNat n.natAbs) else n)
      | none =>
        if '上' ∈ sign then pure (Int.ofNat (sign.count '上'))
        else if '下' ∈ sign then pure (-(Int.ofNat (sign.count '下')))
        else if '本' ∈ sign ∨ '当' ∈ sign ∨ pyContains sign "°0".toList then pure 0
        else Except.error (.missingShiftOffset sign)
    .ok (.shifted field unit dir offset)

/-- `parse_special_field` (formula.py line 304): executable-suffix fields
short-circuit; otherwise, with no explicit sign, split the field at its
last shift operator, and on failure apply the error policy (`warn` also
emits a warning — a side effect outside the model). -/
def parse_special_field (field : Str) (sign : Option Str := none)
    (error : EPolicy := .warn) : Except Err ParsedField :=
  match execMatch field with
  | some (origin, suffix) => .ok (.executable origin suffix)
  | none =>
    match sign with
    | some s => analyzeSign field s
    | none =>
      match splitLastOp field with
      | some (origin, op, param) => analyzeSign origin (op :: param)
      | none =>
        match error with
        | .policyRaise => .error (.unrecognizedSpecialField field)
        | .warn => .ok (.noShift field)
        | .ignore => .ok (.noShift field)

/-- `translate_special_field` (formula.py line 276), `str` branch: the
canonical re-encoding `origin ++ "_" ++ unit ++ direction ++ abs(offset)`
for a successfully decoded shift; executable-suffix fields (whose dict has
no `unit` key) and undecoded fields return the original text. -/
def translate_special_field (field : Str) (sign : Option Str := none)
    (error : EPolicy := .warn) : Except Err Str :=
  match parse_special_field field sign error with
  | .ok (.shifted origin unit dir off) =>
    .ok (origin ++ '_' :: (unit ++ dir ++ natToStr off.natAbs))
  | .ok _ => .ok field
  | .error e => .error e

/-- The numbers produced by `unify_number`: Python ints and `np.inf` /
`-np.inf`.  The claims exercise only integer and infinity bounds; decimal
float literals are outside the verified statements. -/
inductive PyNum
  | int (n : Int)
  | posInf
  | negInf
deriving DecidableEq

/-- Python `eval(string)` restricted to the forms `unify_number`
constructs: `np.inf`, `-np.inf`, and (possibly negated) integer literals.
Anything else is modelled as the `except` branch of `unify_number`
(`ValueError`). -/
def evalNum (s : Str) : Except Err PyNum :=
  if s = "np.inf".toList then .ok .posInf
  else if s = "-np.inf".toList then .ok .negInf
  else
    match s with
    | '-' :: t => if pyIsDigit t then .ok (.int (-(Int.ofNat (digitsToNat t))))
                  else .error (.invalidNumeric s)
    | t => if pyIsDigit t then .ok (.int (Int.ofNat (digitsToNat t)))
           else .error (.invalidNumeric s)

/-- `unify_number` (formula.py line 432): record a leading minus
(`string[0]` raises IndexError on the empty string), delete every `-`,
canonicalise `inf`/`∞` spellings to `np.inf`, re-attach the minus, `eval`. -/
def unify_number (string : Str) : Except Err PyNum := do
  let c0 ← pyIndexChar string 0
  let s := pyReplace string "-".toList []
  let s := if pyContains (pyLower s) "inf".toList then "np.inf".toList else s
  let s := if '∞' ∈ s then "np.inf".toList else s
  let s := (if c0 = '-' then "-".toList else []) ++ s
  evalNum s

/-- A range bound: the raw text in non-numeric mode, a `unify_number`
result in numeric mode. -/
inductive Bound
  | str (s : Str)
  | num (n : PyNum)
deriving DecidableEq

/-- `range2tuple` (formula.py line 403): clean, split on `,` (exactly two
parts or the malformed-range assert fires), peel the outer bracket
characters, optionally coerce the bounds, and translate the bracket pair
through `inclusive_dict` (`KeyError` on an unknown pair).  The source
evaluates `range_list[0][0]` and `range_list[1][-1]` while building the
bracket string, before the numeric conversions, and looks the pair up
after them — the error order below follows it. -/
def range2tuple (range : Str) (numeric : Bool := false) :
    Except Err (Bound × Bound × Str) :=
  let r := clean_formula range
  let rl := pySplitChar ',' r
  if rl.length = 2 then do
    let p0 ← pyIndex rl 0
    let p1 ← pyIndex rl 1
    let c0 ← pyIndexChar p0 0
    let cl ← pyIndexChar p1 (p1.length - 1)
    let lo ← if numeric then do
        let n ← unify_number (p0.drop 1)
        pure (Bound.num n)
      else pure (Bound.str (p0.drop 1))
    let hi ← if numeric then do
        let n ← unify_number p1.dropLast
        pure (Bound.num n)
      else pure (Bound.str p1.dropLast)
    let inc ←
      if c0 = '[' ∧ cl = ']' then pure "both".toList
      else if c0 = '[' ∧ cl = ')' then pure "left".toList
      else if c0 = '(' ∧ cl = ']' then pure "right".toList
      else if c0 = '(' ∧ cl = ')' then pure "neither".toList
      else Except.error Err.keyError
    pure (lo, hi, inc)
  else .error (.malformedRange r)

/-- `range2params` (formula.py line 391): clean, then split on `|` and
parse each part.  The source's two `range.replace('),', ')|')` /
`range.replace('],', ']|')` calls discard their results (Python strings
are immutable and the returns are not assigned), so no `|` is ever
introduced — the split works only on inputs that already contain `|`. -/
def range2params (range : Str) : Except Err (List (Bound × Bound × Str)) :=
  let r := clean_formula range
  mapMExcept (fun g => range2tuple g false) (pySplitChar '|' r)

/-- A threshold value (`Union[str, int, float]` in the source; the claims
exercise integer and string thresholds, and the non-NaN subset is what the
modelled `pd.isna` sees). -/
inductive PyVal
  | int (n : Int)
  | str (s : Str)
deriving DecidableEq

/-- `pd.isna(v)`: `False` for every int and str (a float NaN cannot be
built in the modelled value domain). -/
def pyIsna : PyVal → Bool
  | _ => false

/-- Python truthiness `bool(v)`. -/
def pyBool : PyVal → Bool
  | .int n => !(n = 0)
  | .str s => !s.isEmpty

/-- Python `str(v)` / f-string interpolation of a threshold. -/
def strOfVal : PyVal → Str
  | .int n => intToStr n
  | .str s => s

/-- Lexicographic `<` on Python strings (code-point order). -/
def strLt : Str → Str → Bool
  | [], [] => false
  | [], _ :: _ => true
  | _ :: _, [] => false
  | a :: s, b :: t => if a = b then strLt s t else a < b

/-- Python `a < b` on threshold values: comparing an `int` with a `str`
raises `TypeError`. -/
def valLt : PyVal → PyVal → Except Err Bool
  | .int a, .int b => .ok (a < b)
  | .str a, .str b => .ok (strLt a b)
  | _, _ => .error .typeError

/-- `thresholds.sort()` on a two-element list: Python's stable sort makes
exactly one `<` comparison, `b < a`, and swaps when it is true. -/
def sort2 (a b : PyVal) : Except Err (PyVal × PyVal) := do
  let lt ← valLt b a
  if lt then pure (b, a) else pure (a, b)

/-- The single-threshold branch of `config2range` (formula.py lines
462-473); the caller's list (returned unchanged) is `[th1]`. -/
def config2range_one (method : Str) (th1 : PyVal) :
    Except Err (Str × List PyVal) :=
  if method = "大于".toList ∨ method = ">".toList then
    .ok ('(' :: (strOfVal th1 ++ ", +∞)".toList), [th1])
  else if method = "小于".toList ∨ method = "<".toList then
    .ok ("(-∞, ".toList ++ strOfVal th1 ++ ")".toList, [th1])
  else if method = "大于等于".toList ∨ method = ">=".toList then
    .ok ('[' :: (strOfVal th1 ++ ", +∞)".toList), [th1])
  else if method = "小于等于".toList ∨ method = "<=".toList then
    .ok ("(-∞, ".toList ++ strOfVal th1 ++ "]".toList, [th1])
  else .error (.unknownSingleMethod method)

/-- The two-threshold tail of `config2range` (formula.py lines 474-487),
after `thresholds.sort()` has produced `th1 ≤ th2`. -/
def config2range_two (method : Str) (th1 th2 : PyVal) :
    Except Err (Str × List PyVal) :=
  if pyContains method "外".toList then
    .ok ("(-∞, ".toList ++ strOfVal th1 ++
         (if pyContains method "左包".toList then ']' else ')') :: '|' ::
         (if pyContains method "右包".toList then '[' else '(') ::
         (strOfVal th2 ++ ", +∞)".toList), [th1, th2])
  else if pyContains method "内".toList then
    .ok ((if pyContains method "左包".toList then '[' else '(') ::
         (strOfVal th1 ++ ", ".toList ++ strOfVal th2 ++
          [if pyContains method "右包".toList then ']' else ')']), [th1, th2])
  else .error (.unknownDoubleMethod method)

/-- `config2range` (formula.py line 454).  The returned pair is
`(rendered text, final contents of the caller's thresholds list)`: the
two-threshold branch runs `thresholds.sort()`, which mutates the caller's
list in place; on an exception the list's final contents are not part of
the modelled result.  The three match arms are, in source order: the
`assert len(thresholds) in [1, 2]` (last arm), the `len == 1` branch, and
the `len == 2` branch. -/
def config2range (method : Str) (thresholds : List PyVal) :
    Except Err (Str × List PyVal) :=
  match thresholds with
  | [th1] => config2range_one method th1
  | [t0, t1] =>
    match sort2 t0 t1 with
    | .error e => .error e
    | .ok (th1, th2) => config2range_two method th1 th2
  | _ => .error .thresholdCountError

/-- The `if any([...])` degradation guard of `gen_compare_formula`
(formula.py lines 499-505), evaluated on `t1 = thresholds[1]`. -/
def degradeGuard (method : Str) (t1 : PyVal) : Bool :=
  pyContains method "大于".toList || pyContains method "小于".toList ||
    (method = ">".toList || method = "<".toList ||
     method = ">=".toList || method = "<=".toList) ||
    pyIsna t1 || !pyBool t1

/-- The single-threshold rendering of `gen_compare_formula` (formula.py
lines 508-519); `orig` is the caller's (unmutated) thresholds list. -/
def gen_compare_one (code method : Str) (th1 : PyVal) (orig : List PyVal) :
    Except Err (Str × List PyVal) :=
  if method = "大于".toList ∨ method = ">".toList then
    .ok (code ++ '>' :: strOfVal th1, orig)
  else if method = "小于".toList ∨ method = "<".toList then
    .ok (code ++ '<' :: strOfVal th1, orig)
  else if method = "大于等于".toList ∨ method = ">=".toList then
    .ok (code ++ ">=".toList ++ strOfVal th1, orig)
  else if method = "小于等于".toList ∨ method = "<=".toList then
    .ok (code ++ "<=".toList ++ strOfVal th1, orig)
  else .error (.unknownSingleMethod method)

/-- The rendering tail of the two-threshold branch of
`gen_compare_formula` (formula.py lines 525-533), with `outList` the final
contents of the caller's thresholds list; `left_eq`/`right_eq` of the
source are the two inner conditionals. -/
def gen_compare_two_render (code method : Str) (th1 th2 : PyVal)
    (outList : List PyVal) : Except Err (Str × List PyVal) :=
  if pyContains method "外".toList then
    .ok (code ++ '<' ::
         ((if pyContains method "左包".toList then "=".toList else []) ++ strOfVal th1) ++
         " | ".toList ++ code ++ '>' ::
         ((if pyContains method "右包".toList then "=".toList else []) ++ strOfVal th2),
         outList)
  else if pyContains method "内".toList then
    .ok (code ++ '>' ::
         ((if pyContains method "左包".toList then "=".toList else []) ++ strOfVal th1) ++
         " & ".toList ++ code ++ '<' ::
         ((if pyContains method "右包".toList then "=".toList else []) ++ strOfVal th2),
         outList)
  else .error (.unknownDoubleMethod method)

/-- The two-threshold branch of `gen_compare_formula` (formula.py lines
520-533): skip the in-place sort when `thresholds[0]` is a string (the
caller's list is then left as it was), otherwise sort and leave the
caller's list sorted. -/
def gen_compare_two (code method : Str) (t0 t1 : PyVal) (orig : List PyVal) :
    Except Err (Str × List PyVal) :=
  match t0 with
  | .str _ => gen_compare_two_render code method t0 t1 orig
  | _ =>
    match sort2 t0 t1 with
    | .error e => .error e
    | .ok (a, b) => gen_compare_two_render code method a b [a, b]

/-- `gen_compare_formula` (formula.py line 489).  The returned pair is
`(rendered text, final contents of the caller's thresholds list)`.  The
match arms are, in source order: the `assert len(thresholds) in [1, 2]`
(last arm), then the degradation guard `if any([...])`.  The guard's
`any([...])` argument is a Python list literal, so every element —
including `pd.isna(thresholds[1])` — is evaluated eagerly: on a one-element
thresholds list the `thresholds[1]` subscript raises `IndexError` before
anything is rendered (first arm). -/
def gen_compare_formula (code : Str) (method : Str) (thresholds : List PyVal) :
    Except Err (Str × List PyVal) :=
  match thresholds with
  | [t0] => do
    let t1 ← pyIndex [t0] 1
    if degradeGuard method t1 then gen_compare_one code method t0 [t0]
    else gen_compare_two code method t0 t1 [t0]
  | [t0, t1] =>
    if degradeGuard method t1 then gen_compare_one code method t0 [t0, t1]
    else gen_compare_two code method t0 t1 [t0, t1]
  | _ => .error .thresholdCountError

end Formula

namespace Formula

/-- Claim C1 (code evaluation at the failing input): the verifier accepts
`a==b` and `a>=b`, rejects `a=b`, but *accepts* `a<>b`: the stripping loop
removes every `<` and `>` token before the residual check, so the residual
text can never contain the two-character `<>` token, contradicting the
function's own documentation. -/
theorem c1_verifier_strips_lt_gt_before_residual_check :
    verify_pythonic_formula "a==b".toList = true ∧
    verify_pythonic_formula "a>=b".toList = true ∧
    verify_pythonic_formula "a=b".toList = false ∧
    verify_pythonic_formula "a<>b".toList = true := by
  decide

/-- Claim C9 (counterexample): `simple_cleaning` is *not* case-insensitive:
the lowercase literal `none` is returned unchanged, not coerced to `""`. -/
theorem c9_simple_cleaning_not_case_insensitive :
    simple_cleaning "none".toList = "none".toList ∧ "none".toList ≠ ([] : Str) := by
  decide

/-- Claim C9 (amended): `simple_cleaning` coerces exactly the five literal
tokens `-`, `nan`, `NaN`, `NAN`, `None` to the empty string, by exact match;
other letter-cases of the same words (`none`, `NONE`, `Nan`) pass through
unchanged. -/
theorem c9_simple_cleaning_exact_sentinels :
    simple_cleaning "-".toList = [] ∧
    simple_cleaning "nan".toList = [] ∧
    simple_cleaning "NaN".toList = [] ∧
    simple_cleaning "NAN".toList = [] ∧
    simple_cleaning "None".toList = [] ∧
    simple_cleaning "none".toList = "none".toList ∧
    simple_cleaning "NONE".toList = "NONE".toList ∧
    simple_cleaning "Nan".toList = "Nan".toList := by
  decide

/-- Claim C5 (confirmed): for every formula without `;` — if it contains
`,` the classifier fails with the malformed-single-formula assertion;
otherwise, with a recognised comparison operator present it classifies as
定参判断 (`fixedParamJudge`), failing exactly when the comparison verifier
returns false; with no comparison operator it always classifies as 计算
(`compute`). -/
theorem c5_single_clause_classification (f : Str) (h : ';' ∉ f) :
    (',' ∈ f → _parse_formula f = .error (.malformedSingleFormula f)) ∧
    (',' ∉ f →
      (comparisonOperators.any (fun sign => pyContains f sign) = true →
        (verify_pythonic_formula f = true →
          _parse_formula f = .ok { ftype := .fixedParamJudge, formula := f }) ∧
        (verify_pythonic_formula f = false →
          _parse_formula f = .error (.badComparisonForm f))) ∧
      (comparisonOperators.any (fun sign => pyContains f sign) = false →
        _parse_formula f = .ok { ftype := .compute, formula := f })) := by
  unfold _parse_formula
  rw [if_pos h]
  refine ⟨fun hc => by rw [if_pos hc], fun hc => ⟨fun hop => ⟨fun hv => ?_, fun hv => ?_⟩,
    fun hop => ?_⟩⟩
  · simp [hc, hop, hv]
  · simp [hc, hop, hv]
  · simp [hc, hop]

/-- Claim C5 witness: a concrete `;`-free, `,`-free, operator-free formula
classifies as 计算. -/
theorem c5_single_clause_classification_witness :
    _parse_formula "a+b".toList = .ok { ftype := .compute, formula := "a+b".toList } :=
  (((c5_single_clause_classification "a+b".toList (by decide)).2 (by decide)).2 (by decide))

theorem replaceDel_cons (c b : Char) (t : Str) :
    replaceAllAux c [] [] 0 (b :: t) =
      if c = b then replaceAllAux c [] [] 0 t else b :: replaceAllAux c [] [] 0 t := by
  by_cases h : c = b <;> simp [replaceAllAux, pyStartsWith, h]

theorem mem_replaceDel (c a : Char) (s : Str) (ha : a ∈ s) (hne : a ≠ c) :
    a ∈ pyReplace s [c] [] := by
  show a ∈ replaceAllAux c [] [] 0 s
  induction s with
  | nil => cases ha
  | cons b t ih =>
    rw [replaceDel_cons]
    rcases List.mem_cons.mp ha with h | h
    · subst h
      rw [if_neg (fun hh => hne hh.symm)]
      exact List.mem_cons_self _ _
    · by_cases hcb : c = b
      · rw [if_pos hcb]; exact ih h
      · rw [if_neg hcb]; exact List.mem_cons_of_mem _ (ih h)

theorem pyDigitLike_false_of_paren (s : Str) (h : '(' ∈ s) : pyDigitLike s = false := by
  unfold pyDigitLike pyIsDigit
  have h2 : '(' ∈ pyReplace (pyReplace s ['.'] []) ['-'] [] :=
    mem_replaceDel _ _ _ (mem_replaceDel _ _ _ h (by decide)) (by decide)
  cases hall : (pyReplace (pyReplace s ['.'] []) ['-'] []).all Char.isDigit with
  | false => simp [hall]
  | true =>
    exfalso
    have := List.all_eq_true.mp hall _ h2
    simp at this

theorem specialWords_no_paren : ∀ w ∈ specialWords, '(' ∉ w := by decide

theorem processToken_spec (g : Str) (hne : processToken g ≠ []) :
    pyDigitLike (processToken g) = false ∧ '"' ∉ processToken g ∧
      processToken g ∉ specialWords := by
  unfold processToken at *
  by_cases h1 : pyDigitLike g = true ∨ '"' ∈ g ∨ g ∈ specialWords
  · rw [if_pos h1] at hne; exact absurd rfl hne
  · rw [if_neg h1] at *
    push_neg at h1
    obtain ⟨hd, hq, hw⟩ := h1
    by_cases h2 : '.' ∈ g ∧ g.getLast? ≠ some ')'
    · rw [if_pos h2]
      refine ⟨pyDigitLike_false_of_paren _ (List.mem_append_right _ (by decide)), ?_, ?_⟩
      · intro hmem
        rcases List.mem_append.mp hmem with h | h
        · exact hq h
        · simp at h
      · intro hmem
        exact specialWords_no_paren _ hmem (List.mem_append_right _ (by decide))
    · rw [if_neg h2]
      exact ⟨Bool.eq_false_iff.mpr hd, hq, hw⟩

theorem retainedTokens_spec (formula f : Str) (h : f ∈ retainedTokens formula) :
    pyDigitLike f = false ∧ '"' ∉ f ∧ f ∉ specialWords := by
  unfold retainedTokens at h
  rw [List.mem_filter] at h
  obtain ⟨hmem, hne⟩ := h
  obtain ⟨g, _, hg⟩ := List.mem_map.mp hmem
  subst hg
  refine processToken_spec g ?_
  intro hnil
  rw [hnil] at hne
  simp at hne

theorem mem_pySetList {a : Str} : ∀ (l seen : List Str),
    a ∈ pySetList seen l ↔ a ∈ l ∧ a ∉ seen
  | [], seen => by simp [pySetList]
  | x :: t, seen => by
    unfold pySetList
    by_cases hx : x ∈ seen
    · rw [if_pos hx, mem_pySetList t seen]
      constructor
      · rintro ⟨h1, h2⟩; exact ⟨List.mem_cons_of_mem _ h1, h2⟩
      · rintro ⟨h1, h2⟩
        rcases List.mem_cons.mp h1 with rfl | h1
        · exact absurd hx h2
        · exact ⟨h1, h2⟩
    · rw [if_neg hx]
      constructor
      · intro h
        rcases List.mem_cons.mp h with rfl | h
        · exact ⟨List.mem_cons_self _ _, hx⟩
        · have h' := (mem_pySetList t (x :: seen)).mp h
          exact ⟨List.mem_cons_of_mem _ h'.1,
            fun hs => h'.2 (List.mem_cons_of_mem _ hs)⟩
      · rintro ⟨h1, h2⟩
        rcases List.mem_cons.mp h1 with rfl | h1
        · exact List.mem_cons_self _ _
        · by_cases hax : a = x
          · subst hax; exact List.mem_cons_self _ _
          · refine List.mem_cons_of_mem _ ((mem_pySetList t (x :: seen)).mpr ⟨h1, ?_⟩)
            intro hs
            rcases List.mem_cons.mp hs with h | h
            · exact hax h
            · exact h2 h

theorem mapMExcept_ok_mem (g : α → Except Err β) :
    ∀ (l : List α) (r : List β), mapMExcept g l = .ok r → ∀ y ∈ r, ∃ x ∈ l, g x = .ok y
  | [], r, h => by
    unfold mapMExcept at h
    cases h
    intro y hy
    cases hy
  | x :: t, r, h => by
    unfold mapMExcept at h
    cases hx : g x with
    | error e => rw [hx] at h; cases h
    | ok y0 =>
      rw [hx] at h
      cases ht : mapMExcept g t with
      | error e => rw [ht] at h; cases h
      | ok r0 =>
        rw [ht] at h
        cases h
        intro y hy
        rcases List.mem_cons.mp hy with rfl | hy
        · exact ⟨x, List.mem_cons_self _ _, hx⟩
        · obtain ⟨x', hx', hgx⟩ := mapMExcept_ok_mem g t r0 ht y hy
          exact ⟨x', List.mem_cons_of_mem _ hx', hgx⟩

theorem tokenStem_error_eq {x : Str} {e : Err} (h : tokenStem x = .error e) :
    e = .attributeError := by
  unfold tokenStem at h
  split at h
  · cases h; rfl
  · cases h

theorem tokenStem_ok {x y : Str} (h : tokenStem x = .ok y) :
    y = x.takeWhile (fun c => !isSuffixMark c) := by
  unfold tokenStem at h
  split at h
  · cases h
  · cases h; rfl

theorem mapMExcept_tokenStem_error :
    ∀ (l : List Str) (x : Str), x ∈ l → tokenStem x = .error .attributeError →
      mapMExcept tokenStem l = .error .attributeError
  | [], x, hx, _ => absurd hx (List.not_mem_nil x)
  | b :: t, x, hx, herr => by
    unfold mapMExcept
    cases hb : tokenStem b with
    | error e => rw [tokenStem_error_eq hb]
    | ok y =>
      rcases List.mem_cons.mp hx with rfl | hx'
      · rw [hb] at herr; cases herr
      · rw [mapMExcept_tokenStem_error t x hx' herr]

theorem mem_of_mem_takeWhile {p : Char → Bool} {l : Str} {a : Char}
    (h : a ∈ l.takeWhile p) : a ∈ l := by
  have hsplit := List.takeWhile_append_dropWhile (p := p) (l := l)
  rw [← hsplit]
  exact List.mem_append_left _ h

theorem parse_fields_false_eq (formula : Str) :
    _parse_fields formula false = .ok (retainedTokens formula) := rfl

set_option maxHeartbeats 1000000 in
/-- Claim C6 (amended): `extract_fields("A+B*C", unique=true)` is exactly
the set `{A, B, C}`; for every formula, the retained tokens (the
`unique=false` output) never include a purely-numeric token, a token
containing a double quote, or a reserved word; and with `unique=true` no
token containing a double quote appears — but the suffix-stripping of the
`unique=true` branch may map a retained token onto a reserved word or a
numeric literal, so the reserved/numeric exclusions hold only for the
pre-stripping output. -/
theorem c6_field_extraction_amended :
    parse_fields "A+B*C".toList true = .ok ["A".toList, "B".toList, "C".toList] ∧
    (∀ (formula : Str) (l : List Str) (f : Str),
      _parse_fields formula false = .ok l → f ∈ l →
      pyDigitLike f = false ∧ '"' ∉ f ∧ f ∉ specialWords) ∧
    (∀ (formula : Str) (l : List Str) (f : Str),
      _parse_fields formula true = .ok l → f ∈ l → '"' ∉ f) := by
  refine ⟨by decide, ?_, ?_⟩
  · intro formula l f h hf
    simp only [parse_fields_false_eq, Except.ok.injEq] at h
    subst h
    exact retainedTokens_spec formula f hf
  · intro formula l f h hf
    unfold _parse_fields at h
    cases hm : mapMExcept tokenStem (pySetList [] (retainedTokens formula)) with
    | error e => rw [hm] at h; cases h
    | ok fs =>
      rw [hm] at h
      cases h
      have hffs : f ∈ fs := ((mem_pySetList fs []).mp hf).1
      obtain ⟨x, hx, hgx⟩ := mapMExcept_ok_mem tokenStem _ _ hm f hffs
      have hxfields : x ∈ retainedTokens formula := ((mem_pySetList _ []).mp hx).1
      have hxq : '"' ∉ x := (retainedTokens_spec formula x hxfields).2.1
      have hy := tokenStem_ok hgx
      intro hcontra
      exact hxq (mem_of_mem_takeWhile (hy ▸ hcontra))

/-- Claim C6 witness: the universal part of the amended claim, instantiated
at the formula `A+B` and its retained token `A`. -/
theorem c6_field_extraction_amended_witness :
    pyDigitLike "A".toList = false ∧ '"' ∉ "A".toList ∧ "A".toList ∉ specialWords :=
  c6_field_extraction_amended.2.1 "A+B".toList ["A".toList, "B".toList] "A".toList rfl
    (by decide)

/-- Claim C6 (counterexample): on the formula `sum^1` with `unique=true`,
suffix stripping turns the retained token `sum^1` into `sum`, which is on
the fixed reserved-word list — so a reserved word does appear in the
result, refuting the claim's universal exclusion. -/
theorem c6_counterexample_reserved_word_reappears :
    parse_fields "sum^1".toList true = .ok ["sum".toList] ∧ "sum".toList ∈ specialWords :=
  ⟨by decide, by decide⟩

theorem execMatch_none_of_no_dot (s : Str) (h : '.' ∉ s) : execMatch s = none := by
  unfold execMatch
  by_cases hw : (List.takeWhile isWordChar s).isEmpty
  · rw [if_pos hw]
  · rw [if_neg hw]
    cases hr : List.dropWhile isWordChar s with
    | nil => rfl
    | cons c t =>
      have hcs : c ∈ s := by
        have hsplit := List.takeWhile_append_dropWhile (p := isWordChar) (l := s)
        rw [← hsplit]
        exact List.mem_append_right _ (hr ▸ List.mem_cons_self c t)
      have hc : ¬(c = '.') := fun hh => h (hh ▸ hcs)
      simp [hc]

theorem takeWhile_append_all {p : Char → Bool} {l r : Str}
    (hl : ∀ c ∈ l, p c = true) :
    (l ++ r).takeWhile p = l ++ r.takeWhile p := by
  induction l with
  | nil => rfl
  | cons c t ih =>
    rw [List.cons_append, List.takeWhile_cons_of_pos (hl c (List.mem_cons_self c t)),
      ih (fun x hx => hl x (List.mem_cons_of_mem c hx))]
    rfl

theorem splitLastOpAux_append (F : Str) (op : Char) (tail : Str)
    (hop : isShiftOp op = true) (ht : splitLastOpAux tail = none) :
    splitLastOpAux (F ++ op :: tail) = some (F, op, tail) := by
  induction F with
  | nil => simp [splitLastOpAux, ht, hop]
  | cons c F ih =>
    show splitLastOpAux (c :: (F ++ op :: tail)) = _
    unfold splitLastOpAux
    rw [ih]

theorem splitLastOp_append (F : Str) (op : Char) (tail : Str) (hF : '\n' ∉ F)
    (hop : isShiftOp op = true) (hopn : op ≠ '\n')
    (htail : List.takeWhile (fun c => !(c = '\n')) tail = tail)
    (ht : splitLastOpAux tail = none) :
    splitLastOp (F ++ op :: tail) = some (F, op, tail) := by
  unfold splitLastOp
  have h1 : List.takeWhile (fun c => !(c = '\n')) (F ++ op :: tail) = F ++ op :: tail := by
    rw [takeWhile_append_all (fun c hc => by
      simp only [Bool.not_eq_true', decide_eq_false_iff_not]
      exact fun hh => hF (hh ▸ hc))]
    congr 1
    rw [List.takeWhile_cons_of_pos (by
      simp only [Bool.not_eq_true', decide_eq_false_iff_not]
      exact hopn)]
    rw [htail]
  rw [h1]
  exact splitLastOpAux_append F op tail hop ht

/-- Claim C4 (counterexample): at the dot-free field name `a\nb` the claim
fails: Python's `.` does not match a newline, so `_field_shift_pattern`
finds no operator on the first line of `a\nb^1`, the decoder takes the
warn/no-shift path, and `translate_special_field` returns the field
unchanged instead of the claimed `a\nb_Ybackward1`. -/
theorem c4_counterexample_newline_field :
    parse_special_field "a\nb^1".toList none .warn = .ok (.noShift "a\nb^1".toList) ∧
    translate_special_field "a\nb^1".toList none .warn = .ok "a\nb^1".toList ∧
    "a\nb^1".toList ≠ "a\nb".toList ++ "_Ybackward1".toList := by
  decide

/-- Claim C4 (amended): for every field name `F` containing no dot *and no
newline*, decoding `F` + `^` + `1` yields unit `Y`, direction `backward`,
offset `1` and canonical-encodes to `F_Ybackward1`; decoding `F` + `°` +
`0` yields unit `YEND`, direction `current`, offset `0` and
canonical-encodes to `F_YENDcurrent0`.  (A newline in `F` hides the
appended operator from the shift regex, whose `.` stops at the first
line, and the decoder then degrades to the no-shift path.) -/
theorem c4_shift_decode_and_canonical_encode (F : Str) (h : '.' ∉ F)
    (hn : '\n' ∉ F) :
    parse_special_field (F ++ "^1".toList) none .warn =
      .ok (.shifted F "Y".toList "backward".toList 1) ∧
    translate_special_field (F ++ "^1".toList) none .warn = .ok (F ++ "_Ybackward1".toList) ∧
    parse_special_field (F ++ "°0".toList) none .warn =
      .ok (.shifted F "YEND".toList "current".toList 0) ∧
    translate_special_field (F ++ "°0".toList) none .warn = .ok (F ++ "_YENDcurrent0".toList) := by
  have hd1 : '.' ∉ F ++ "^1".toList := by
    intro hm
    rcases List.mem_append.mp hm with hh | hh
    · exact h hh
    · simp at hh
  have hd2 : '.' ∉ F ++ "°0".toList := by
    intro hm
    rcases List.mem_append.mp hm with hh | hh
    · exact h hh
    · simp at hh
  have hs1 : splitLastOp (F ++ "^1".toList) = some (F, '^', "1".toList) :=
    splitLastOp_append F '^' "1".toList hn (by decide) (by decide) (by decide) (by decide)
  have hs2 : splitLastOp (F ++ "°0".toList) = some (F, '°', "0".toList) :=
    splitLastOp_append F '°' "0".toList hn (by decide) (by decide) (by decide) (by decide)
  have hp1 : parse_special_field (F ++ "^1".toList) none .warn =
      .ok (.shifted F "Y".toList "backward".toList 1) := by
    unfold parse_special_field
    rw [execMatch_none_of_no_dot _ hd1, hs1]
    rfl
  have hp2 : parse_special_field (F ++ "°0".toList) none .warn =
      .ok (.shifted F "YEND".toList "current".toList 0) := by
    unfold parse_special_field
    rw [execMatch_none_of_no_dot _ hd2, hs2]
    rfl
  refine ⟨hp1, ?_, hp2, ?_⟩
  · unfold translate_special_field
    rw [hp1]
    rfl
  · unfold translate_special_field
    rw [hp2]
    rfl

/-- Claim C4 witness: the shift decoding and re-encoding at the concrete
dot-free, newline-free field `A`. -/
theorem c4_shift_decode_and_canonical_encode_witness :
    parse_special_field "A^1".toList none .warn =
      .ok (.shifted "A".toList "Y".toList "backward".toList 1) ∧
    translate_special_field "A^1".toList none .warn = .ok "A_Ybackward1".toList ∧
    parse_special_field "A°0".toList none .warn =
      .ok (.shifted "A".toList "YEND".toList "current".toList 0) ∧
    translate_special_field "A°0".toList none .warn = .ok "A_YENDcurrent0".toList :=
  c4_shift_decode_and_canonical_encode "A".toList (by decide) (by decide)

/-- Claim C10 (confirmed): whenever the tokenization retains a token whose
first character lies in the suffix alphabet `~`, `^`, `°`, `.`, the
`unique=true` extraction does not return a field list: the anchored regex
`[^~^°.]+` fails to match, `None.group()` raises `AttributeError`, and the
call fails with that unhandled error (not a domain assertion). -/
theorem c10_suffix_initial_token_unhandled_error (formula tok : Str) (c : Char)
    (h1 : tok ∈ retainedTokens formula) (h2 : tok.head? = some c)
    (h3 : isSuffixMark c = true) :
    _parse_fields formula true = .error .attributeError := by
  cases tok with
  | nil => cases h2
  | cons c0 rest =>
    have hc : c0 = c := by
      simp only [List.head?] at h2
      cases h2
      rfl
    subst hc
    have hstem : tokenStem (c0 :: rest) = .error .attributeError := by
      unfold tokenStem
      rw [List.takeWhile_cons_of_neg (by simp [h3])]
      rfl
    have hmem : (c0 :: rest) ∈ pySetList [] (retainedTokens formula) :=
      (mem_pySetList _ _).mpr ⟨h1, by simp⟩
    unfold _parse_fields
    rw [mapMExcept_tokenStem_error _ _ hmem hstem]

/-- Claim C10 witness: the formula `A+°B` retains the token `°B`, whose
leading `°` is in the suffix alphabet, so extraction fails with the
unhandled attribute error. -/
theorem c10_suffix_initial_token_unhandled_error_witness :
    _parse_fields "A+°B".toList true = .error Err.attributeError :=
  c10_suffix_initial_token_unhandled_error "A+°B".toList "°B".toList '°'
    (by decide) rfl (by decide)

/-- Claim C2 (code evaluation at the failing input): `gen_compare_formula`
on a one-element thresholds list raises `IndexError` instead of rendering
the single-threshold comparison its docstring promises — the `any([...])`
guard evaluates `pd.isna(thresholds[1])` eagerly. -/
theorem c2_single_threshold_index_error :
    gen_compare_formula "x".toList "大于".toList [.int 5] = .error .indexError := rfl

/-- Claim C3 (code evaluation at the failing input): on the docstring's own
example `(-2,-1],[1,2)` the multi-range splitter fails with the
malformed-range assertion: the two `.replace` calls that should turn `],`
and `),` into `]|` and `)|` discard their results, so the whole string is
handed to `range2tuple`, which sees four comma-separated parts. -/
theorem c3_comma_separated_groups_fail :
    range2params "(-2,-1],[1,2)".toList =
      .error (.malformedRange "(-2,-1],[1,2)".toList) := by decide

theorem sort2_perm {a b x y : PyVal} (h : sort2 a b = .ok (x, y)) :
    List.Perm [x, y] [a, b] := by
  unfold sort2 valLt at h
  cases a with
  | int na =>
    cases b with
    | int nb =>
      simp only [bind, Except.bind] at h
      split at h
      · cases h; exact List.Perm.swap _ _ _
      · cases h; exact List.Perm.refl _
    | str sb => cases h
  | str sa =>
    cases b with
    | int nb => cases h
    | str sb =>
      simp only [bind, Except.bind] at h
      split at h
      · cases h; exact List.Perm.swap _ _ _
      · cases h; exact List.Perm.refl _

theorem config2range_one_out {method : Str} {th1 : PyVal} {out : Str × List PyVal}
    (h : config2range_one method th1 = .ok out) : out.2 = [th1] := by
  unfold config2range_one at h
  by_cases h1 : method = "大于".toList ∨ method = ">".toList
  · simp only [if_pos h1] at h; cases h; rfl
  · simp only [if_neg h1] at h
    by_cases h2 : method = "小于".toList ∨ method = "<".toList
    · simp only [if_pos h2] at h; cases h; rfl
    · simp only [if_neg h2] at h
      by_cases h3 : method = "大于等于".toList ∨ method = ">=".toList
      · simp only [if_pos h3] at h; cases h; rfl
      · simp only [if_neg h3] at h
        by_cases h4 : method = "小于等于".toList ∨ method = "<=".toList
        · simp only [if_pos h4] at h; cases h; rfl
        · simp only [if_neg h4] at h; cases h

theorem config2range_two_out {method : Str} {th1 th2 : PyVal} {out : Str × List PyVal}
    (h : config2range_two method th1 th2 = .ok out) : out.2 = [th1, th2] := by
  unfold config2range_two at h
  by_cases h1 : pyContains method "外".toList = true
  · simp only [if_pos h1] at h; cases h; rfl
  · simp only [if_neg h1] at h
    by_cases h2 : pyContains method "内".toList = true
    · simp only [if_pos h2] at h; cases h; rfl
    · simp only [if_neg h2] at h; cases h

theorem gen_compare_one_out {code method : Str} {th1 : PyVal} {orig : List PyVal}
    {out : Str × List PyVal} (h : gen_compare_one code method th1 orig = .ok out) :
    out.2 = orig := by
  unfold gen_compare_one at h
  by_cases h1 : method = "大于".toList ∨ method = ">".toList
  · simp only [if_pos h1] at h; cases h; rfl
  · simp only [if_neg h1] at h
    by_cases h2 : method = "小于".toList ∨ method = "<".toList
    · simp only [if_pos h2] at h; cases h; rfl
    · simp only [if_neg h2] at h
      by_cases h3 : method = "大于等于".toList ∨ method = ">=".toList
      · simp only [if_pos h3] at h; cases h; rfl
      · simp only [if_neg h3] at h
        by_cases h4 : method = "小于等于".toList ∨ method = "<=".toList
        · simp only [if_pos h4] at h; cases h; rfl
        · simp only [if_neg h4] at h; cases h

theorem gen_compare_two_render_out {code method : Str} {th1 th2 : PyVal}
    {outList : List PyVal} {out : Str × List PyVal}
    (h : gen_compare_two_render code method th1 th2 outList = .ok out) :
    out.2 = outList := by
  unfold gen_compare_two_render at h
  by_cases h1 : pyContains method "外".toList = true
  · simp only [if_pos h1] at h; cases h; rfl
  · simp only [if_neg h1] at h
    by_cases h2 : pyContains method "内".toList = true
    · simp only [if_pos h2] at h; cases h; rfl
    · simp only [if_neg h2] at h; cases h

theorem gen_compare_two_out {code method : Str} {t0 t1 : PyVal} {orig : List PyVal}
    {out : Str × List PyVal} (h : gen_compare_two code method t0 t1 orig = .ok out) :
    out.2 = orig ∨ ∃ x y, sort2 t0 t1 = .ok (x, y) ∧ out.2 = [x, y] := by
  unfold gen_compare_two at h
  cases t0 with
  | str s0 => exact Or.inl (gen_compare_two_render_out h)
  | int n0 =>
    cases hs : sort2 (PyVal.int n0) t1 with
    | error e => rw [hs] at h; cases h
    | ok p =>
      obtain ⟨x, y⟩ := p
      rw [hs] at h
      exact Or.inr ⟨x, y, rfl, gen_compare_two_render_out h⟩

/-- Claim C8 (counterexample): `config2range("内", [2, 1])` sorts the
caller's thresholds list in place — after the call the list is `[1, 2]`,
not the original `[2, 1]`, refuting "same elements in the same order". -/
theorem c8_counterexample_inplace_sort :
    config2range "内".toList [PyVal.int 2, PyVal.int 1] =
      .ok ("(1, 2)".toList, [PyVal.int 1, PyVal.int 2]) ∧
    [PyVal.int 1, PyVal.int 2] ≠ [PyVal.int 2, PyVal.int 1] := by
  decide

/-- Claim C8 (amended): the renderers are free of I/O and shared state,
but not of argument mutation: on every successful call the thresholds list
after the call is a *permutation* of the list before — unchanged except in
the two-threshold branches, where `thresholds.sort()` reorders it in place
(`gen_compare_formula` skips the sort when the first threshold is a
string). -/
theorem c8_thresholds_amended_permutation :
    (∀ (method : Str) (ts : List PyVal) (out : Str × List PyVal),
      config2range method ts = .ok out → List.Perm out.2 ts) ∧
    (∀ (code method : Str) (ts : List PyVal) (out : Str × List PyVal),
      gen_compare_formula code method ts = .ok out → List.Perm out.2 ts) := by
  constructor
  · intro method ts out h
    rcases ts with _ | ⟨a, _ | ⟨b, _ | ⟨c, t⟩⟩⟩
    · cases h
    · have he : config2range method [a] = config2range_one method a := rfl
      rw [he] at h
      rw [config2range_one_out h]
    · have he : config2range method [a, b] =
          (match sort2 a b with
           | .error e => .error e
           | .ok (th1, th2) => config2range_two method th1 th2) := rfl
      rw [he] at h
      cases hs : sort2 a b with
      | error e => rw [hs] at h; cases h
      | ok p =>
        obtain ⟨x, y⟩ := p
        rw [hs] at h
        rw [config2range_two_out h]
        exact sort2_perm hs
    · cases h
  · intro code method ts out h
    rcases ts with _ | ⟨a, _ | ⟨b, _ | ⟨c, t⟩⟩⟩
    · cases h
    · cases h
    · have he : gen_compare_formula code method [a, b] =
          (if degradeGuard method b then gen_compare_one code method a [a, b]
           else gen_compare_two code method a b [a, b]) := rfl
      rw [he] at h
      by_cases hg : degradeGuard method b = true
      · simp only [if_pos hg] at h
        rw [gen_compare_one_out h]
      · simp only [if_neg hg] at h
        rcases gen_compare_two_out h with hout | ⟨x, y, hs, hout⟩
        · rw [hout]
        · rw [hout]; exact sort2_perm hs
    · cases h

/-- Claim C8 witness: the amended permutation fact at the counterexample's
input — the list `[2, 1]` comes back as its permutation `[1, 2]`. -/
theorem c8_thresholds_amended_permutation_witness :
    List.Perm [PyVal.int 1, PyVal.int 2] [PyVal.int 2, PyVal.int 1] :=
  c8_thresholds_amended_permutation.1 "内".toList [PyVal.int 2, PyVal.int 1]
    ("(1, 2)".toList, [PyVal.int 1, PyVal.int 2]) (by decide)

/-- Claim C7 (confirmed): `range2tuple` demands exactly two comma-separated
parts, failing with the malformed-range assertion otherwise; the opening
bracket of the first part and the closing bracket of the second select the
inclusivity (`[]`→both, `[)`→left, `(]`→right, `()`→neither); in numeric
mode `(-2,-1]` parses to lower `-2`, upper `-1`, inclusivity `right`. -/
theorem c7_range_parse :
    range2tuple "(-2,-1]".toList true =
      .ok (.num (.int (-2)), .num (.int (-1)), "right".toList) ∧
    range2tuple "[1,2]".toList false = .ok (.str "1".toList, .str "2".toList, "both".toList) ∧
    range2tuple "[1,2)".toList false = .ok (.str "1".toList, .str "2".toList, "left".toList) ∧
    range2tuple "(1,2]".toList false = .ok (.str "1".toList, .str "2".toList, "right".toList) ∧
    range2tuple "(1,2)".toList false = .ok (.str "1".toList, .str "2".toList, "neither".toList) ∧
    (∀ (r : Str) (b : Bool), (pySplitChar ',' (clean_formula r)).length ≠ 2 →
      range2tuple r b = .error (.malformedRange (clean_formula r))) := by
  refine ⟨by decide, by decide, by decide, by decide, by decide, ?_⟩
  intro r b hlen
  unfold range2tuple
  simp only [if_neg hlen]

/-- Claim C7 witness: the malformed-range failure at a concrete
three-part input. -/
theorem c7_range_parse_witness :
    range2tuple "1,2,3".toList false = .error (.malformedRange "1,2,3".toList) :=
  c7_range_parse.2.2.2.2.2 "1,2,3".toList false (by decide)

end Formula
